import Mathlib

/-
Verification of the liberrc uncertain-value library (src/errc.h) against its
natural-language specification.

Shallow embedding conventions:
* The template parameters T (value type) and E (error type) are both modelled
  by the exact rationals. Machine floating point rounding is not modelled;
  every arithmetic identity below is exact. Division in the embedding is the
  total division of a field with q / 0 = 0; the C++ code performs the same
  division with no zero test, where IEEE arithmetic would yield an infinity
  or NaN. No embedded operation has an exception path unless the C++ source
  contains a throw statement at that point.
* The per-instance default-error policy state (the protected members
  numberDefaultErrorCode and defaultErrorCalcFunction) is part of the
  structure, so that copies carry the policy, exactly as in the source.
* std::function<E(T)> is modelled by Option (so that nullptr is none).
-/

namespace Liberrc

/-- Constant DEF_ERROR_ZERO from ErrorValue (value 0). -/
def DEF_ERROR_ZERO : ℤ := 0

/-- Constant DEF_ERROR_HALF from ErrorValue (value 1). -/
def DEF_ERROR_HALF : ℤ := 1

/-- Constant DEF_ERROR_FUNC from ErrorValue (value 2). -/
def DEF_ERROR_FUNC : ℤ := 2

/-- The ErrorValue class state: the public members value and error together
with the protected default-error-policy members. -/
structure ErrorValue where
  value : ℚ
  error : ℚ
  numberDefaultErrorCode : ℤ
  defaultErrorCalcFunction : Option (ℚ → ℚ)

/-- The constructor ErrorValue(T value_, E error_): stores both fields directly
with no validation; the protected members take their member-initializer
defaults DEF_ERROR_ZERO and nullptr. -/
def mkErrorValue (v e : ℚ) : ErrorValue :=
  { value := v, error := e,
    numberDefaultErrorCode := DEF_ERROR_ZERO,
    defaultErrorCalcFunction := none }

/-- Translation of the loop in the integral branch of
ErrorValue::halfErrorCalcFunction: while (x % 10 == 0) { c++; x /= 10; }.
The source loop runs forever on x = 0; the embedding adds the guard x not 0
and returns 0 there (no claim touches that divergent input). -/
def countTrailingZeroDigits (x : ℤ) : ℕ :=
  if h : x ≠ 0 ∧ x % 10 = 0 then countTrailingZeroDigits (x / 10) + 1 else 0
termination_by x.natAbs
decreasing_by
  obtain ⟨hx, hmod⟩ := h
  obtain ⟨k, rfl⟩ := Int.dvd_of_emod_eq_zero hmod
  rw [Int.mul_ediv_cancel_left k (by norm_num)]
  have h10 : ((10 : ℤ) * k).natAbs = 10 * k.natAbs := by
    rw [Int.natAbs_mul]
    norm_num
  have hk : k.natAbs ≠ 0 := by
    simp only [ne_eq, Int.natAbs_eq_zero]
    rintro rfl
    simp at hx
  omega

/-- Translation of the loop in the fractional branch of
ErrorValue::halfErrorCalcFunction: while (floor(x) != x) { c++; x *= 10; }.
The source guard floor(x) != x is x.den != 1.  When x.den = 1 the product
10 * x also has denominator 1, so the guard used here agrees with the source
guard on every input on which the source loop terminates; on rationals whose
denominator has a prime factor other than 2 and 5 the source loop never
terminates (unreachable from binary floating point data), and the embedding
returns the iteration count reached before the denominator stops shrinking. -/
def countDecimalDigits (x : ℚ) : ℕ :=
  if h : (10 * x).den < x.den then countDecimalDigits (10 * x) + 1 else 0
termination_by x.den
decreasing_by
  exact h

/-- Translation of ErrorValue::halfErrorCalcFunction.  Integral inputs
(floor(x) == x, that is den = 1) take the trailing-zero-digit loop and return
5 * 10 ^ (c - 1); fractional inputs take the decimal-place loop and return
5 * 10 ^ (-c - 1). -/
def ErrorValue.halfErrorCalcFunction (x : ℚ) : ℚ :=
  if x.den = 1 then
    5 * (10 : ℚ) ^ ((countTrailingZeroDigits x.num : ℤ) - 1)
  else
    5 * (10 : ℚ) ^ (-(countDecimalDigits x : ℤ) - 1)

/-- Translation of ErrorValue::defaultNumberError: dispatch on the active
default-error-policy code.  In the DEF_ERROR_FUNC case the source calls the
stored std::function; calling a null std::function throws
std::bad_function_call in C++, and no claim depends on that branch, so the
null case is given the junk value 0 here.  The source switch has no default
case, so other codes fall off the end of the function (undefined behaviour);
they are also given 0. -/
def ErrorValue.defaultNumberError (self : ErrorValue) (x : ℚ) : ℚ :=
  if self.numberDefaultErrorCode = DEF_ERROR_ZERO then 0
  else if self.numberDefaultErrorCode = DEF_ERROR_HALF then
    ErrorValue.halfErrorCalcFunction x
  else if self.numberDefaultErrorCode = DEF_ERROR_FUNC then
    match self.defaultErrorCalcFunction with
    | some f => f x
    | none => 0
  else 0

/-- Translation of ErrorValue::operator+=(const ErrorValue): value += ev.value;
error += ev.error. -/
def ErrorValue.addAssign (self ev : ErrorValue) : ErrorValue :=
  { self with value := self.value + ev.value, error := self.error + ev.error }

/-- Translation of ErrorValue::operator-=(const ErrorValue): value -= ev.value;
error += ev.error. -/
def ErrorValue.subAssign (self ev : ErrorValue) : ErrorValue :=
  { self with value := self.value - ev.value, error := self.error + ev.error }

/-- Translation of ErrorValue::operator*=(const ErrorValue):
T oldV = value; value *= ev.value;
error = value * (error / oldV + ev.error / ev.value).
The error assignment reads the already updated value member and the snapshot
oldV of the receiver value; there is no zero test on either operand and no
absolute value anywhere. -/
def ErrorValue.mulAssign (self ev : ErrorValue) : ErrorValue :=
  let oldV := self.value
  let newValue := self.value * ev.value
  { self with value := newValue,
              error := newValue * (self.error / oldV + ev.error / ev.value) }

/-- Translation of ErrorValue::operator/=(const ErrorValue):
T oldV = value; value /= ev.value;
error = value * (error / oldV + ev.error / ev.value).
There is no test for ev.value == 0 and no throw statement in the source. -/
def ErrorValue.divAssign (self ev : ErrorValue) : ErrorValue :=
  let oldV := self.value
  let newValue := self.value / ev.value
  { self with value := newValue,
              error := newValue * (self.error / oldV + ev.error / ev.value) }

/-- Translation of ErrorValue::operator+(const ErrorValue) const:
ErrorValue res = *this; res += ev; return res.  The triple returned is
(returned value, state of the *this cell after the call, state of the ev cell
after the call); the two statements of the body assign only to members of the
local copy res, and both member functions involved are const qualified. -/
def callAdd (a b : ErrorValue) : ErrorValue × ErrorValue × ErrorValue :=
  let res := a
  let res2 := res.addAssign b
  (res2, a, b)

/-- Translation of ErrorValue::operator-(const ErrorValue) const, in the same
cell-passing style as callAdd. -/
def callSub (a b : ErrorValue) : ErrorValue × ErrorValue × ErrorValue :=
  let res := a
  let res2 := res.subAssign b
  (res2, a, b)

/-- Translation of ErrorValue::operator*(const ErrorValue) const, in the same
cell-passing style as callAdd. -/
def callMul (a b : ErrorValue) : ErrorValue × ErrorValue × ErrorValue :=
  let res := a
  let res2 := res.mulAssign b
  (res2, a, b)

/-- Translation of ErrorValue::operator/(const ErrorValue) const, in the same
cell-passing style as callAdd. -/
def callDiv (a b : ErrorValue) : ErrorValue × ErrorValue × ErrorValue :=
  let res := a
  let res2 := res.divAssign b
  (res2, a, b)

/-- The value returned by ErrorValue::operator+. -/
def ErrorValue.add (self ev : ErrorValue) : ErrorValue := (callAdd self ev).1

/-- The value returned by ErrorValue::operator-. -/
def ErrorValue.sub (self ev : ErrorValue) : ErrorValue := (callSub self ev).1

/-- The value returned by ErrorValue::operator*. -/
def ErrorValue.mul (self ev : ErrorValue) : ErrorValue := (callMul self ev).1

/-- The value returned by ErrorValue::operator/. -/
def ErrorValue.div (self ev : ErrorValue) : ErrorValue := (callDiv self ev).1

/-- Translation of ErrorValue::min: return value - error. -/
def ErrorValue.min (self : ErrorValue) : ℚ := self.value - self.error

/-- Translation of ErrorValue::max: return value + error. -/
def ErrorValue.max (self : ErrorValue) : ℚ := self.value + self.error

/-- Translation of ErrorValue::setDefaultErrorCalculationMethod.  The source
switch is: case DEF_ERROR_FUNC stores fun and falls through; case
DEF_ERROR_ZERO falls through; case DEF_ERROR_HALF assigns
numberDefaultErrorCode = code and falls through (there is no break); the
default case throws std::range_error unconditionally.  Consequently every
call first performs the state updates of the matched cases and then reaches
the throw.  The Bool component records that the call threw. -/
def ErrorValue.setDefaultErrorCalculationMethod (self : ErrorValue) (code : ℤ)
    (f : Option (ℚ → ℚ)) : ErrorValue × Bool :=
  if code = DEF_ERROR_FUNC then
    ({ self with defaultErrorCalcFunction := f, numberDefaultErrorCode := code },
      true)
  else if code = DEF_ERROR_ZERO ∨ code = DEF_ERROR_HALF then
    ({ self with numberDefaultErrorCode := code }, true)
  else
    (self, true)

/-- Translation of ErrorValue::getDefaultErrorCalculationMethod. -/
def ErrorValue.getDefaultErrorCalculationMethod (self : ErrorValue) : ℤ :=
  self.numberDefaultErrorCode

/-- An ErrorValue whose active default-error policy is DEF_ERROR_HALF, as
obtained by mutating numberDefaultErrorCode on a fresh instance. -/
def evHalf : ErrorValue :=
  { value := 0, error := 0,
    numberDefaultErrorCode := DEF_ERROR_HALF,
    defaultErrorCalcFunction := none }

/-- A computable stand-in for the C library square root on the rationals,
used only to instantiate theorems that are parametric in the square-root
primitive; it is exact on perfect-square nonnegative rationals, which is the
only place it is ever used. -/
def qsqrt (q : ℚ) : ℚ := (Nat.sqrt q.num.toNat : ℚ) / (Nat.sqrt q.den : ℚ)

namespace errmath

/-- Translation of errmath::asin: ErrorValue(asin(x.value),
x.error / sqrt(1 - x.value * x.value)).  The transcendental primitives asin
and sqrt of the C library are abstracted as function parameters; the
arithmetic around them is taken verbatim from the source.  The source
contains no domain test and no throw statement. -/
def asin (asinF sqrtF : ℚ → ℚ) (x : ErrorValue) : ErrorValue :=
  mkErrorValue (asinF x.value) (x.error / sqrtF (1 - x.value * x.value))

/-- Translation of errmath::acos: ErrorValue(acos(x.value),
x.error / sqrt(1 - x.value * x.value)); no domain test in the source. -/
def acos (acosF sqrtF : ℚ → ℚ) (x : ErrorValue) : ErrorValue :=
  mkErrorValue (acosF x.value) (x.error / sqrtF (1 - x.value * x.value))

/-- Translation of errmath::atan: ErrorValue(atan(x.value),
x.error / sqrt(1 + x.value * x.value)).  Note the square root in the
denominator of the error term in the source. -/
def atan (atanF sqrtF : ℚ → ℚ) (x : ErrorValue) : ErrorValue :=
  mkErrorValue (atanF x.value) (x.error / sqrtF (1 + x.value * x.value))

/-- Translation of errmath::log: ErrorValue(log(x.value), x.error / x.value);
no domain test in the source. -/
def log (logF : ℚ → ℚ) (x : ErrorValue) : ErrorValue :=
  mkErrorValue (logF x.value) (x.error / x.value)

/-- Translation of errmath::acosh: ErrorValue(acosh(x.value),
x.error / sqrt(x.value * x.value - 1)); no domain test in the source. -/
def acosh (acoshF sqrtF : ℚ → ℚ) (x : ErrorValue) : ErrorValue :=
  mkErrorValue (acoshF x.value) (x.error / sqrtF (x.value * x.value - 1))

/-- Translation of errmath::sqrt: ErrorValue(sqrt(x.value),
x.error / 2 * sqrt(x.value)).  By C++ operator precedence the error term is
(x.error / 2) * sqrt(x.value). -/
def sqrt (sqrtF : ℚ → ℚ) (x : ErrorValue) : ErrorValue :=
  mkErrorValue (sqrtF x.value) (x.error / 2 * sqrtF x.value)

end errmath

/-- Helper: the fractional-branch loop stops immediately on integral inputs,
because multiplying an integral rational by 10 keeps the denominator 1. -/
theorem countDecimalDigits_eq_zero (q : ℚ) (h : q.den = 1) :
    countDecimalDigits q = 0 := by
  unfold countDecimalDigits
  have hnot : ¬ ((10 * q).den < q.den) := by
    rw [h]
    have := (10 * q).pos
    omega
  rw [dif_neg hnot]

/-- Helper: the trailing-zero-digit loop of the integral branch counts the
exact power of 10 dividing its argument. -/
theorem countTrailingZeroDigits_spec (m : ℤ) (hm : m ≠ 0) (h10 : ¬ (10:ℤ) ∣ m) :
    ∀ c : ℕ, countTrailingZeroDigits (m * 10 ^ c) = c := by
  intro c
  induction c with
  | zero =>
    rw [pow_zero, mul_one]
    unfold countTrailingZeroDigits
    rw [dif_neg]
    rintro ⟨-, hmod⟩
    exact h10 (Int.dvd_of_emod_eq_zero hmod)
  | succ c ih =>
    have h1 : m * 10 ^ (c + 1) ≠ 0 :=
      mul_ne_zero hm (pow_ne_zero _ (by norm_num))
    have h2 : (m * 10 ^ (c + 1)) % 10 = 0 :=
      Int.emod_eq_zero_of_dvd ⟨m * 10 ^ c, by ring⟩
    have h3 : m * 10 ^ (c + 1) / 10 = m * 10 ^ c := by
      rw [pow_succ, ← mul_assoc]
      exact Int.mul_ediv_cancel _ (by norm_num)
    unfold countTrailingZeroDigits
    rw [dif_pos ⟨h1, h2⟩, h3, ih]

/-- Helper: if m divided by a positive power of 10 is integral then m is a
multiple of 10. -/
theorem ten_dvd_of_den_eq_one (m : ℤ) (k : ℕ) (hk : k ≠ 0)
    (h : ((m : ℚ) / (10:ℚ) ^ k).den = 1) : (10:ℤ) ∣ m := by
  set x := (m : ℚ) / (10:ℚ) ^ k with hx
  have h1 : x = (x.num : ℚ) := by
    conv_lhs => rw [← Rat.num_div_den x]
    rw [h]
    norm_num
  have h2 : (m : ℚ) = (x.num : ℚ) * (10:ℚ) ^ k := by
    have h3 : (m : ℚ) / (10:ℚ) ^ k = (x.num : ℚ) := by rw [← hx, ← h1]
    field_simp at h3
    exact h3
  have h4 : m = x.num * 10 ^ k := by exact_mod_cast h2
  have h5 : (10:ℤ) ∣ 10 ^ k := dvd_pow_self 10 hk
  exact h4 ▸ Dvd.dvd.mul_left h5 x.num

/-- Helper: multiplying a noninteger rational whose denominator divides a
power of 10 by 10 strictly shrinks the denominator. -/
theorem den_mul_ten_lt (q : ℚ) (k : ℕ) (hden : q.den ≠ 1)
    (hdvd : (q.den : ℤ) ∣ 10 ^ k) : ((10:ℚ) * q).den < q.den := by
  have hd0 : (q.den : ℤ) ≠ 0 := by exact_mod_cast q.den_ne_zero
  have hrep : (10:ℚ) * q = Rat.divInt (10 * q.num) (q.den : ℤ) := by
    rw [Rat.divInt_eq_div]
    push_cast
    conv_lhs => rw [← Rat.num_div_den q]
    ring
  have hdvd2 : (((10:ℚ) * q).den : ℤ) ∣ (q.den : ℤ) := by
    rw [hrep]
    exact Rat.den_dvd _ _
  have hle : ((10:ℚ) * q).den ≤ q.den :=
    Nat.le_of_dvd q.pos (by exact_mod_cast hdvd2)
  have hne : ((10:ℚ) * q).den ≠ q.den := by
    intro heq
    obtain ⟨p, pp, hpd⟩ := Nat.exists_prime_and_dvd hden
    have hp10 : p ∣ 10 := by
      have hint : (p : ℤ) ∣ 10 ^ k :=
        dvd_trans (Int.natCast_dvd_natCast.mpr hpd) hdvd
      have hnat : p ∣ 10 ^ k := by exact_mod_cast hint
      exact pp.dvd_of_dvd_pow hnat
    obtain ⟨c, hc1, hc2⟩ := Rat.num_den_mk hd0 hrep
    rw [heq] at hc2
    have hc : c = 1 := by
      have h1 : (q.den : ℤ) * 1 = (q.den : ℤ) * c := by linarith [hc2]
      exact (mul_left_cancel₀ hd0 h1).symm
    rw [hc, one_mul] at hc1
    have hpnum : p ∣ ((10:ℚ) * q).num.natAbs := by
      have h1 : (p : ℤ) ∣ ((10:ℚ) * q).num := by
        rw [← hc1]
        exact Dvd.dvd.mul_right (by exact_mod_cast hp10) q.num
      have h2 : ((p : ℤ)).natAbs ∣ (((10:ℚ) * q).num).natAbs :=
        Int.natAbs_dvd_natAbs.mpr h1
      simpa using h2
    have hpden : p ∣ ((10:ℚ) * q).den := by
      rw [heq]
      exact hpd
    have hgcd := Nat.dvd_gcd hpnum hpden
    have hone : Nat.gcd (((10:ℚ) * q).num).natAbs (((10:ℚ) * q).den) = 1 :=
      ((10:ℚ) * q).reduced
    rw [hone] at hgcd
    have := Nat.Prime.one_lt pp
    have := Nat.dvd_one.mp hgcd
    omega
  exact lt_of_le_of_ne hle hne

/-- Helper: the decimal-place loop counts exactly the number of decimal
places of a fraction written in lowest terms over a power of 10. -/
theorem countDecimalDigits_div_pow (m : ℤ) (h10 : ¬ (10:ℤ) ∣ m) :
    ∀ c : ℕ, countDecimalDigits ((m : ℚ) / (10:ℚ) ^ (c + 1)) = c + 1 := by
  intro c
  induction c with
  | zero =>
    have hden : ((m : ℚ) / (10:ℚ) ^ (0 + 1)).den ≠ 1 := fun h =>
      h10 (ten_dvd_of_den_eq_one m (0 + 1) (by norm_num) h)
    have h10x : (10:ℚ) * ((m : ℚ) / (10:ℚ) ^ (0 + 1)) = (m : ℚ) := by
      rw [zero_add, pow_one]
      field_simp
    have hguard : ((10:ℚ) * ((m : ℚ) / (10:ℚ) ^ (0 + 1))).den
        < ((m : ℚ) / (10:ℚ) ^ (0 + 1)).den := by
      rw [h10x, Rat.den_intCast]
      have := ((m : ℚ) / (10:ℚ) ^ (0 + 1)).pos
      omega
    unfold countDecimalDigits
    rw [dif_pos hguard, h10x,
      countDecimalDigits_eq_zero (m : ℚ) (Rat.den_intCast m)]
  | succ c ih =>
    have hden : ((m : ℚ) / (10:ℚ) ^ (c + 1 + 1)).den ≠ 1 := fun h =>
      h10 (ten_dvd_of_den_eq_one m (c + 1 + 1) (by omega) h)
    have hrep : (m : ℚ) / (10:ℚ) ^ (c + 1 + 1)
        = Rat.divInt m ((10:ℤ) ^ (c + 1 + 1)) := by
      rw [Rat.divInt_eq_div]
      push_cast
      ring
    have hdvdden : ((((m : ℚ) / (10:ℚ) ^ (c + 1 + 1)).den : ℤ))
        ∣ (10:ℤ) ^ (c + 1 + 1) := by
      rw [hrep]
      exact Rat.den_dvd _ _
    have hguard := den_mul_ten_lt ((m : ℚ) / (10:ℚ) ^ (c + 1 + 1))
      (c + 1 + 1) hden hdvdden
    have h10x : (10:ℚ) * ((m : ℚ) / (10:ℚ) ^ (c + 1 + 1))
        = (m : ℚ) / (10:ℚ) ^ (c + 1) := by
      rw [pow_succ]
      field_simp
      ring
    unfold countDecimalDigits
    rw [dif_pos hguard, h10x, ih]

/-- Helper: value of halfErrorCalcFunction on an integral input with exactly
c trailing zero digits. -/
theorem halfErrorCalcFunction_int (m : ℤ) (c : ℕ) (hm : m ≠ 0)
    (h10 : ¬ (10:ℤ) ∣ m) :
    ErrorValue.halfErrorCalcFunction ((m * 10 ^ c : ℤ) : ℚ)
      = 5 * (10:ℚ) ^ ((c : ℤ) - 1) := by
  unfold ErrorValue.halfErrorCalcFunction
  rw [if_pos (Rat.den_intCast _), Rat.num_intCast,
    countTrailingZeroDigits_spec m hm h10 c]

/-- Helper: value of halfErrorCalcFunction on a fractional input with exactly
c decimal places. -/
theorem halfErrorCalcFunction_frac (m : ℤ) (c : ℕ) (h10 : ¬ (10:ℤ) ∣ m)
    (hc : 1 ≤ c) :
    ErrorValue.halfErrorCalcFunction ((m : ℚ) / (10:ℚ) ^ c)
      = 5 * (10:ℚ) ^ (-(c : ℤ) - 1) := by
  obtain ⟨k, rfl⟩ : ∃ k, c = k + 1 := ⟨c - 1, by omega⟩
  have hden : ((m : ℚ) / (10:ℚ) ^ (k + 1)).den ≠ 1 := fun h =>
    h10 (ten_dvd_of_den_eq_one m (k + 1) (by omega) h)
  unfold ErrorValue.halfErrorCalcFunction
  rw [if_neg hden, countDecimalDigits_div_pow m h10 k]

/-- Helper: the rational square-root stand-in is exact at 4. -/
theorem qsqrt_four : qsqrt 4 = 2 := by
  rw [qsqrt]
  norm_num [show ((4:ℚ)).num = 4 from rfl, show ((4:ℚ)).den = 1 from rfl]
  rw [show ((4:ℤ).toNat) = 2 ^ 2 from rfl, Nat.sqrt_eq']
  norm_num

/-- Helper: the rational square-root stand-in is exact at 25/16. -/
theorem qsqrt_twentyfive_sixteenths : qsqrt (1 + 3/4 * (3/4)) = 5/4 := by
  have hq : (1 + 3/4 * (3/4) : ℚ) = (25 : ℚ) / 16 := by norm_num
  have hnum : ((25 : ℚ) / 16).num = 25 := by
    have h := Rat.num_div_eq_of_coprime (a := 25) (b := 16) (by norm_num)
      (by norm_num)
    push_cast at h
    exact h
  have hden : ((25 : ℚ) / 16).den = 16 := by
    have h := Rat.den_div_eq_of_coprime (a := 25) (b := 16) (by norm_num)
      (by norm_num)
    push_cast at h
    exact_mod_cast h
  rw [hq, qsqrt, hnum, hden]
  rw [show ((25:ℤ).toNat) = 5 ^ 2 from rfl, show (16:ℕ) = 4 ^ 2 from rfl,
    Nat.sqrt_eq', Nat.sqrt_eq']
  norm_num

/-- C1: the claim says setDefaultErrorCalculationMethod accepts Zero and
HalfUnit unconditionally, accepts Custom exactly when the supplied function
is non-null, and fails only otherwise.  In the source every case of the
switch falls through into the default branch, which throws, so every call
throws std::range_error: the call with mode DEF_ERROR_ZERO throws (first
conjunct), as do HalfUnit and both Custom calls; the null Custom call stores
the null function and sets the mode before throwing instead of rejecting it;
an unknown mode throws and leaves the state unchanged.  This refutes the
acceptance half of the claim and confirms only its unknown-mode half. -/
theorem C1_setDefaultErrorCalculationMethod_always_throws :
    ((mkErrorValue 1 0).setDefaultErrorCalculationMethod DEF_ERROR_ZERO none).2
      = true
    ∧ ((mkErrorValue 1 0).setDefaultErrorCalculationMethod DEF_ERROR_HALF none).2
      = true
    ∧ ((mkErrorValue 1 0).setDefaultErrorCalculationMethod DEF_ERROR_FUNC
        (some (fun q => q))).2 = true
    ∧ ((mkErrorValue 1 0).setDefaultErrorCalculationMethod DEF_ERROR_FUNC none).2
      = true
    ∧ ((mkErrorValue 1 0).setDefaultErrorCalculationMethod DEF_ERROR_FUNC
        none).1.defaultErrorCalcFunction = none
    ∧ ((mkErrorValue 1 0).setDefaultErrorCalculationMethod DEF_ERROR_ZERO
        none).1.numberDefaultErrorCode = DEF_ERROR_ZERO
    ∧ ((mkErrorValue 1 0).setDefaultErrorCalculationMethod 7 none).1
      = mkErrorValue 1 0 :=
  ⟨rfl, rfl, rfl, rfl, rfl, rfl, rfl⟩

/-- C2: the claim says division by a zero-valued ErrorValue fails with
ArithmeticError::DivisionByZero and leaves the operands unmodified.  The
source operator/= contains no test on ev.value and no throw statement: the
embedded operators are total functions satisfying the division formula for
all operands, including a zero divisor, and at the failing input the raw
division 1 / 0 is reached (second conjunct); the compound form overwrites
the receiver fields unconditionally, so no operand preservation on a zero
divisor exists either. -/
theorem C2_division_by_zero_unchecked :
    (∀ a b : ErrorValue, a.div b = a.divAssign b ∧
      a.divAssign b = { a with value := a.value / b.value,
                               error := a.value / b.value
                                 * (a.error / a.value + b.error / b.value) })
    ∧ (ErrorValue.div (mkErrorValue 1 0) (mkErrorValue 0 0)).value = (1:ℚ) / 0 :=
  ⟨fun _ _ => ⟨rfl, rfl⟩, rfl⟩

/-- C3 counterexample: at a = b = ErrorValue(-1, 1) the product has error
value(b)*error(a) + value(a)*error(b) = -2, while the claimed formula with
absolute values gives |1| * (1/1 + 1/1) = 2, so the claim as stated is
false. -/
theorem C3_mul_error_abs_counterexample :
    ¬ ((ErrorValue.mul (mkErrorValue (-1) 1) (mkErrorValue (-1) 1)).error
        = |(-1 : ℚ) * (-1)| * (1 / |(-1 : ℚ)| + 1 / |(-1 : ℚ)|)) := by
  norm_num [ErrorValue.mul, callMul, ErrorValue.mulAssign, mkErrorValue]

/-- C3 amended: for nonzero operand values, multiplication yields value
value(a)*value(b) and error value(a)*value(b) * (error(a)/value(a) +
error(b)/value(b)) with the signed pre-operation operand values (no absolute
values), which simplifies to value(b)*error(a) + value(a)*error(b); the
compound and non-compound forms agree. -/
theorem C3_mul_error_signed (a b : ErrorValue) (ha : a.value ≠ 0)
    (hb : b.value ≠ 0) :
    (a.mul b).value = a.value * b.value
    ∧ (a.mul b).error
        = a.value * b.value * (a.error / a.value + b.error / b.value)
    ∧ (a.mul b).error = b.value * a.error + a.value * b.error
    ∧ a.mulAssign b = a.mul b := by
  refine ⟨rfl, rfl, ?_, rfl⟩
  show a.value * b.value * (a.error / a.value + b.error / b.value) = _
  field_simp
  ring

/-- C3 witness: the amended multiplication formula at the concrete operands
ErrorValue(2, 1) and ErrorValue(3, 1) gives error 3*1 + 2*1 = 5. -/
theorem C3_mul_error_signed_witness :
    (ErrorValue.mul (mkErrorValue 2 1) (mkErrorValue 3 1)).error = 5 := by
  have h := C3_mul_error_signed (mkErrorValue 2 1) (mkErrorValue 3 1)
    (by norm_num [mkErrorValue]) (by norm_num [mkErrorValue])
  have h2 := h.2.2.1
  norm_num [mkErrorValue] at h2
  exact h2

/-- C4: the claim says out-of-domain inputs to the propagation functions
fail with DomainError.  The sources of errmath::asin, errmath::log and
errmath::acosh contain no domain test and no throw statement: each embedded
function is total, and on the out-of-domain inputs below it evaluates its
error formula with a negative square-root argument (asin at value 2, acosh
at value 0) or produces a negative error and takes the logarithm of a
negative number (log at value -1) instead of failing; in IEEE arithmetic
those square roots and the logarithm are NaN. -/
theorem C4_domain_violations_unchecked (asinF sqrtF logF acoshF : ℚ → ℚ) :
    errmath.asin asinF sqrtF (mkErrorValue 2 (1/10))
      = mkErrorValue (asinF 2) ((1/10) / sqrtF (1 - 2 * 2))
    ∧ (1 - (2:ℚ) * 2 < 0)
    ∧ errmath.log logF (mkErrorValue (-1) 1)
      = mkErrorValue (logF (-1)) (1 / (-1))
    ∧ ((1:ℚ) / (-1) < 0)
    ∧ errmath.acosh acoshF sqrtF (mkErrorValue 0 1)
      = mkErrorValue (acoshF 0) (1 / sqrtF (0 * 0 - 1))
    ∧ ((0:ℚ) * 0 - 1 < 0) :=
  ⟨rfl, by norm_num, rfl, by norm_num, rfl, by norm_num⟩

/-- C5: under the HalfUnit policy a promoted literal 100 gets error 50, a
literal 1 gets error 1/2, and a literal 1.5 = 3/2 gets error 1/20; in
general an integral literal with exactly c trailing zero digits gets error
5 * 10 ^ (c - 1) and a fraction with exactly c decimal places (m / 10^c in
lowest terms over a power of ten, 10 not dividing m, c at least 1) gets
error 5 * 10 ^ (-c - 1). -/
theorem C5_halfUnit_default_errors :
    (ErrorValue.defaultNumberError evHalf 100 = 50)
    ∧ (ErrorValue.defaultNumberError evHalf 1 = 1/2)
    ∧ (ErrorValue.defaultNumberError evHalf (3/2) = 1/20)
    ∧ (∀ (m : ℤ) (c : ℕ), m ≠ 0 → ¬ (10:ℤ) ∣ m →
        ErrorValue.halfErrorCalcFunction ((m * 10 ^ c : ℤ) : ℚ)
          = 5 * (10:ℚ) ^ ((c : ℤ) - 1))
    ∧ (∀ (m : ℤ) (c : ℕ), ¬ (10:ℤ) ∣ m → 1 ≤ c →
        ErrorValue.halfErrorCalcFunction ((m : ℚ) / (10:ℚ) ^ c)
          = 5 * (10:ℚ) ^ (-(c : ℤ) - 1)) := by
  have hd : ∀ x : ℚ, ErrorValue.defaultNumberError evHalf x
      = ErrorValue.halfErrorCalcFunction x := by
    intro x
    simp [ErrorValue.defaultNumberError, evHalf, DEF_ERROR_ZERO, DEF_ERROR_HALF]
  refine ⟨?_, ?_, ?_, fun m c hm h10 => halfErrorCalcFunction_int m c hm h10,
    fun m c h10 hc => halfErrorCalcFunction_frac m c h10 hc⟩
  · rw [hd]
    have h := halfErrorCalcFunction_int 1 2 one_ne_zero (by norm_num)
    norm_num at h
    exact h
  · rw [hd]
    have h := halfErrorCalcFunction_int 1 0 one_ne_zero (by norm_num)
    norm_num at h
    exact h
  · rw [hd]
    have h := halfErrorCalcFunction_frac 15 1 (by norm_num) (le_refl 1)
    norm_num at h
    exact h

/-- C5 witness: the general halfErrorCalcFunction statements applied at the
concrete inputs 30 (one trailing zero digit, error 5) and 25/100 (two
decimal places, error 5/1000). -/
theorem C5_halfUnit_default_errors_witness :
    ErrorValue.halfErrorCalcFunction ((3 * 10 ^ 1 : ℤ) : ℚ)
      = 5 * (10:ℚ) ^ ((1 : ℤ) - 1)
    ∧ ErrorValue.halfErrorCalcFunction ((25 : ℚ) / (10:ℚ) ^ 2)
      = 5 * (10:ℚ) ^ (-(2 : ℤ) - 1) :=
  ⟨C5_halfUnit_default_errors.2.2.2.1 3 1 (by norm_num) (by norm_num),
   C5_halfUnit_default_errors.2.2.2.2 25 2 (by norm_num) (by norm_num)⟩

/-- C6 counterexample: the ErrorValue produced by multiplying
ErrorValue(-1, 1) by itself has value 1 and error -2, so min() = 3 exceeds
the value and the lower half of the chain fails for a producible
ErrorValue. -/
theorem C6_bounds_chain_counterexample :
    ¬ (ErrorValue.min (ErrorValue.mul (mkErrorValue (-1) 1) (mkErrorValue (-1) 1))
        ≤ (ErrorValue.mul (mkErrorValue (-1) 1) (mkErrorValue (-1) 1)).value) := by
  norm_num [ErrorValue.min, ErrorValue.mul, callMul, ErrorValue.mulAssign,
    mkErrorValue]

/-- C6 amended: min() returns value - error and max() returns value + error
for every ErrorValue, and the chain min() at most value at most max() holds
exactly for ErrorValues with nonnegative error; operations can produce
negative errors, for which the chain fails. -/
theorem C6_min_max_bounds (ev : ErrorValue) :
    ErrorValue.min ev = ev.value - ev.error
    ∧ ErrorValue.max ev = ev.value + ev.error
    ∧ (0 ≤ ev.error →
        ErrorValue.min ev ≤ ev.value ∧ ev.value ≤ ErrorValue.max ev) := by
  refine ⟨rfl, rfl, fun h => ⟨?_, ?_⟩⟩
  · show ev.value - ev.error ≤ ev.value
    linarith
  · show ev.value ≤ ev.value + ev.error
    linarith

/-- C6 witness: the bound chain at the concrete ErrorValue(3, 1), whose
error is nonnegative. -/
theorem C6_min_max_bounds_witness :
    ErrorValue.min (mkErrorValue 3 1) ≤ (mkErrorValue 3 1).value
    ∧ (mkErrorValue 3 1).value ≤ ErrorValue.max (mkErrorValue 3 1) :=
  (C6_min_max_bounds (mkErrorValue 3 1)).2.2 (by norm_num [mkErrorValue])

/-- C7: the claim says errmath::sqrt returns error error(x)/(2*sqrt(value)).
By C++ precedence the source expression x.error/2*sqrt(x.value) is
(x.error/2)*sqrt(x.value): for any square-root primitive with sqrt 4 = 2 the
result at ErrorValue(4, 1) has error (1/2)*2 = 1, which differs from the
claimed 1/(2*sqrt 4) = 1/4. -/
theorem C7_sqrt_error_precedence_bug (sqrtF : ℚ → ℚ) (h4 : sqrtF 4 = 2) :
    (errmath.sqrt sqrtF (mkErrorValue 4 1)).value = 2
    ∧ (errmath.sqrt sqrtF (mkErrorValue 4 1)).error = 1
    ∧ (errmath.sqrt sqrtF (mkErrorValue 4 1)).error ≠ 1 / (2 * sqrtF 4) := by
  refine ⟨?_, ?_, ?_⟩ <;> (simp [errmath.sqrt, mkErrorValue, h4]; try norm_num)

/-- C7 witness: the square-root divergence instantiated with the exact
rational square root at 4. -/
theorem C7_sqrt_error_precedence_bug_witness :
    qsqrt 4 = 2 ∧ (errmath.sqrt qsqrt (mkErrorValue 4 1)).error = 1 :=
  ⟨qsqrt_four, (C7_sqrt_error_precedence_bug qsqrt qsqrt_four).2.1⟩

/-- C8: the claim says errmath::atan multiplies the input error by
1/(1 + value^2).  The source divides by sqrt(1 + value^2) instead: for any
square-root primitive with sqrt(25/16) = 5/4 the result at
ErrorValue(3/4, 1) has error 4/5, which differs from the claimed
1/(1 + 9/16) = 16/25. -/
theorem C8_atan_error_formula_bug (atanF sqrtF : ℚ → ℚ)
    (h : sqrtF (1 + 3/4 * (3/4)) = 5/4) :
    (errmath.atan atanF sqrtF (mkErrorValue (3/4) 1)).error = 4/5
    ∧ (errmath.atan atanF sqrtF (mkErrorValue (3/4) 1)).error
        ≠ 1 / (1 + 3/4 * (3/4)) := by
  constructor <;> (simp [errmath.atan, mkErrorValue, h]; try norm_num)

/-- C8 witness: the arctangent divergence instantiated with the identity
for the arctangent primitive and the exact rational square root at 25/16. -/
theorem C8_atan_error_formula_bug_witness :
    qsqrt (1 + 3/4 * (3/4)) = 5/4
    ∧ (errmath.atan (fun q => q) qsqrt (mkErrorValue (3/4) 1)).error = 4/5 :=
  ⟨qsqrt_twentyfive_sixteenths,
   (C8_atan_error_formula_bug (fun q => q) qsqrt qsqrt_twentyfive_sixteenths).1⟩

/-- C9: each non-compound binary operator copies the receiver, applies the
compound operator to the copy, and returns it; the receiver cell and the
argument cell, everything included (value, error and the two policy
members), are exactly as before the call, and only the returned ErrorValue
carries the result. -/
theorem C9_binary_operators_pure (a b : ErrorValue) :
    ((callAdd a b).2.1 = a ∧ (callAdd a b).2.2 = b
      ∧ (callAdd a b).1 = a.addAssign b)
    ∧ ((callSub a b).2.1 = a ∧ (callSub a b).2.2 = b
      ∧ (callSub a b).1 = a.subAssign b)
    ∧ ((callMul a b).2.1 = a ∧ (callMul a b).2.2 = b
      ∧ (callMul a b).1 = a.mulAssign b)
    ∧ ((callDiv a b).2.1 = a ∧ (callDiv a b).2.2 = b
      ∧ (callDiv a b).1 = a.divAssign b) :=
  ⟨⟨rfl, rfl, rfl⟩, ⟨rfl, rfl, rfl⟩, ⟨rfl, rfl, rfl⟩, ⟨rfl, rfl, rfl⟩⟩

/-- C10: the multiplication error formula holds for all operands with no
side condition and no error path: the equation below is unconditional, so
the divisions error(a)/value(a) and error(b)/value(b) are evaluated even
when an operand value is zero, as the concrete instance with value(a) = 0
shows; the embedding uses the total field division in place of the
unguarded machine division of the source. -/
theorem C10_mul_no_zero_guard :
    (∀ a b : ErrorValue,
      a.mulAssign b = { a with value := a.value * b.value,
                               error := a.value * b.value
                                 * (a.error / a.value + b.error / b.value) }
      ∧ a.mul b = a.mulAssign b)
    ∧ (ErrorValue.mulAssign (mkErrorValue 0 1) (mkErrorValue 2 3)).error
        = 0 * 2 * ((1:ℚ) / 0 + 3 / 2) :=
  ⟨fun _ _ => ⟨rfl, rfl⟩, rfl⟩

end Liberrc
